import Mathlib

/-!
Shallow embedding of `src/data_processing/mqtt_fault_sender.py`
(Equipment-Fault-Detection repository) and verification of the frozen
claims about it.

The script has two functions:

* `load_bearing_data(file_path, is_train)` — reads a CSV into a pandas
  DataFrame, derives per-row signal statistics (mean, std, max, min,
  peak-to-peak over the numeric signal columns), and attaches fault
  classification columns resolved through `FAULT_CODE_MAP`.
* `send_bearing_data_to_algorithm(df)` — one MQTT publish session: connect,
  iterate the rows, build a JSON envelope per row, publish it, count
  successes/failures, and print a run summary.  The whole session body sits
  inside a single `try/except`.

Modelling conventions used below:

* Python floats are modelled as rationals (`ℚ`); the IEEE NaN produced by
  pandas (e.g. `std` with its default `ddof=1` on a single sample) is
  modelled as `Option.none`.
* `round(x, n)` (Python 3 banker's rounding) is modelled by
  `roundHalfEven` / `pyRound` on `ℚ`.
* The paho-mqtt client is modelled as an environment record: `connect`
  either raises (transport failure) or returns, the CONNACK return code is
  delivered to the `on_connect` callback, and each `publish` call reports a
  return code (`0` = `MQTT_ERR_SUCCESS`).
* Exceptions escaping the session body are modelled by `Except`.
-/

namespace EFD

/-! ## Fault classification (source lines 25-36 and 62-70) -/

/-- One entry of the fault-code table: `{code, desc, level}`. -/
structure FaultInfo where
  code : String
  desc : String
  level : String
deriving DecidableEq, Repr

/-- The `FAULT_CODE_MAP` dictionary of the source, keyed by the label
values 0-9; any other key is absent (`none`). -/
def FAULT_CODE_MAP (label : Nat) : Option FaultInfo :=
  match label with
  | 0 => some ⟨"B000", "直径1-正常状态", "normal"⟩
  | 1 => some ⟨"B101", "直径1-内圈故障", "fault"⟩
  | 2 => some ⟨"B102", "直径1-外圈故障", "fault"⟩
  | 3 => some ⟨"B103", "直径1-滚珠故障", "fault"⟩
  | 4 => some ⟨"B201", "直径2-内圈故障", "fault"⟩
  | 5 => some ⟨"B202", "直径2-外圈故障", "fault"⟩
  | 6 => some ⟨"B203", "直径2-滚珠故障", "fault"⟩
  | 7 => some ⟨"B301", "直径3-内圈故障", "fault"⟩
  | 8 => some ⟨"B302", "直径3-外圈故障", "fault"⟩
  | 9 => some ⟨"B303", "直径3-滚珠故障", "fault"⟩
  | _ => none

/-- The placeholder used when a labeled row's index is absent from the map:
`FAULT_CODE_MAP.get(x, {}).get(...)` falls back to
`("UNKNOWN", "未知状态", "unknown")` (source lines 63-65). -/
def unknownInfo : FaultInfo := ⟨"UNKNOWN", "未知状态", "unknown"⟩

/-- The placeholder attached when the source is unlabeled (the `else`
branch, source lines 66-70): `("PENDING", "待算法端预测故障状态", "pending")`. -/
def pendingInfo : FaultInfo := ⟨"PENDING", "待算法端预测故障状态", "pending"⟩

/-- Per-row fault classification of `load_bearing_data` (source lines
62-70).  The guard is literally `if is_train and "label" in df.columns`;
in the then-branch each of the three columns is resolved by
`FAULT_CODE_MAP.get(label, {}).get(field, default)`, which is the
map-lookup-with-placeholder below; the else-branch stamps the pending
placeholder. -/
def classifyRow (is_train hasLabelCol : Bool) (label : Nat) : FaultInfo :=
  if is_train && hasLabelCol then
    match FAULT_CODE_MAP label with
    | some info => info
    | none => unknownInfo
  else pendingInfo

/-! ## Signal feature derivation (source lines 53-59)

The five derived columns are computed per row over the signal columns.
`mean`, `max`, `min` and `peak_to_peak` are total on non-empty vectors;
pandas `std(axis=1)` uses its default `ddof = 1`, so on a single sample it
divides by `n - 1 = 0` and yields NaN — modelled as `none`.  For `std` we
track the variance (the square of the standard deviation) so as to stay in
`ℚ`; it is `none` exactly when the float result is NaN, and the float
result is finite exactly when the variance is defined (given finite
inputs). -/

/-- Row mean of the signal columns, `df[signal_cols].mean(axis=1)`;
NaN (empty vector) is `none`. -/
def signalMean (xs : List ℚ) : Option ℚ :=
  if xs.length = 0 then none else some (xs.sum / xs.length)

/-- Row sample standard deviation `df[signal_cols].std(axis=1)` (pandas
default `ddof = 1`), represented by its square.  `none` models the NaN
that pandas produces when fewer than two samples are present. -/
def signalStd (xs : List ℚ) : Option ℚ :=
  if xs.length < 2 then none
  else some ((xs.map (fun x => (x - xs.sum / xs.length) ^ 2)).sum / ((xs.length : ℚ) - 1))

/-- Row maximum `df[signal_cols].max(axis=1)`; NaN (empty vector) is `none`. -/
def signalMax (xs : List ℚ) : Option ℚ := xs.max?

/-- Row minimum `df[signal_cols].min(axis=1)`; NaN (empty vector) is `none`. -/
def signalMin (xs : List ℚ) : Option ℚ := xs.min?

/-- Peak-to-peak, source line 59: `df["signal_max"] - df["signal_min"]`
(NaN propagates when either operand is NaN). -/
def signalPeakToPeak (xs : List ℚ) : Option ℚ :=
  match signalMax xs, signalMin xs with
  | some a, some b => some (a - b)
  | _, _ => none

/-! ## Python rounding (used by the envelope builder, source lines 134-138) -/

/-- Python 3 `round` to the nearest integer: round half to even. -/
def roundHalfEven (q : ℚ) : ℤ :=
  let f := q.floor
  let r := q - f
  if r < 1 / 2 then f
  else if 1 / 2 < (r : ℚ) then f + 1
  else if f % 2 = 0 then f else f + 1

/-- Python `round(q, nd)` on the idealized rational value. -/
def pyRound (q : ℚ) (nd : Nat) : ℚ := (roundHalfEven (q * 10 ^ nd) : ℚ) / 10 ^ nd

/-- The envelope stores each feature as `round(float(x), 6)`; we represent
that rounded value exactly by its numerator in units of `10 ^ (-6)`,
i.e. `micro6 q = pyRound q 6 * 10 ^ 6` as an integer. -/
def micro6 (q : ℚ) : ℤ := roundHalfEven (q * 1000000)

/-! ## The message envelope (source lines 127-142)

The `mqtt_msg` dict built per row.  The five `signal_features` values have
been rounded with `round(·, 6)`, so each is an exact multiple of
`10 ^ (-6)`; we store them as integers in units of `10 ^ (-6)`. -/

/-- The `signal_features` sub-object of the message, in units of
`10 ^ (-6)` (the values after `round(float(...), 6)`). -/
structure SignalFeatures where
  mean : ℤ
  std : ℤ
  max : ℤ
  min : ℤ
  peak_to_peak : ℤ
deriving DecidableEq

/-- The `mqtt_msg` message envelope (dict insertion order is the field
order below, which json.dumps preserves). -/
structure Envelope where
  sample_id : ℤ
  fault_code : String
  fault_desc : String
  fault_level : String
  signal_features : SignalFeatures
  send_timestamp : ℤ
  send_time : String
deriving DecidableEq

/-! ## JSON wire serialization (source line 145)

`json.dumps(mqtt_msg, ensure_ascii=False)` with the default separators
produces, for this fixed dict shape, the concatenation of fixed literal
chunks and the printed field values.  Non-ASCII characters are emitted
verbatim (`ensure_ascii=False`); `"` and `\` and control characters are
escaped.  Numbers print in decimal; we print the rounded feature values at
the full six fractional digits (Python's float repr prints the shortest
form of the same value — both printings are injective on the rounded
values, and the parser below is the corresponding inverse). -/

/-- Decimal digit character for a value below ten. -/
def digitChar (n : Nat) : Char :=
  match n with
  | 0 => '0'
  | 1 => '1'
  | 2 => '2'
  | 3 => '3'
  | 4 => '4'
  | 5 => '5'
  | 6 => '6'
  | 7 => '7'
  | 8 => '8'
  | _ => '9'

/-- Numeric value of a decimal digit character. -/
def chVal (c : Char) : Nat := c.toNat - 48

/-- Fueled most-significant-first decimal printing of a natural number. -/
def natDigitsAux : Nat → Nat → List Char
  | 0, _ => []
  | fuel + 1, n =>
    if n < 10 then [digitChar n]
    else natDigitsAux fuel (n / 10) ++ [digitChar (n % 10)]

/-- Decimal digits of a natural number, most significant first. -/
def natDigits (n : Nat) : List Char := natDigitsAux (n + 1) n

/-- Decimal digits of `m < 10 ^ 6`, left-padded with zeros to width six. -/
def pad6 (m : Nat) : List Char :=
  List.replicate (6 - (natDigits m).length) '0' ++ natDigits m

/-- Decimal printing of an integer (as json.dumps prints Python ints). -/
def printInt (k : ℤ) : List Char :=
  if k < 0 then '-' :: natDigits k.natAbs else natDigits k.natAbs

/-- Decimal printing of a feature value held in units of `10 ^ (-6)`:
sign, integer part, point, six fractional digits. -/
def printMicro (k : ℤ) : List Char :=
  (if k < 0 then ['-'] else []) ++
    (natDigits (k.natAbs / 1000000) ++ '.' :: pad6 (k.natAbs % 1000000))

/-- Hexadecimal digit character (for control-character escapes). -/
def hexDigit (n : Nat) : Char :=
  if n < 10 then digitChar n
  else if n = 10 then 'a'
  else if n = 11 then 'b'
  else if n = 12 then 'c'
  else if n = 13 then 'd'
  else if n = 14 then 'e'
  else 'f'

/-- JSON string escaping of one character as json.dumps does with
`ensure_ascii=False`: quote, backslash and control characters are escaped,
everything else (including non-ASCII) passes through verbatim. -/
def escJsonChar (c : Char) : List Char :=
  if c = '"' then ['\\', '"']
  else if c = '\\' then ['\\', '\\']
  else if c = '\x08' then ['\\', 'b']
  else if c = '\x09' then ['\\', 't']
  else if c = '\x0a' then ['\\', 'n']
  else if c = '\x0c' then ['\\', 'f']
  else if c = '\x0d' then ['\\', 'r']
  else if c.toNat < 32 then ['\\', 'u', '0', '0', hexDigit (c.toNat / 16), hexDigit (c.toNat % 16)]
  else [c]

/-- JSON string escaping of a character sequence. -/
def escChars : List Char → List Char
  | [] => []
  | c :: cs => escJsonChar c ++ escChars cs

/-- A character that json string escaping leaves untouched. -/
def benignChar (c : Char) : Prop := c ≠ '"' ∧ c ≠ '\\' ∧ 32 ≤ c.toNat

/-- A string that json string escaping leaves untouched: no quote, no
backslash, no control characters.  Every string the script ever places in
an envelope (fault codes, the Chinese descriptions, the level enums, the
formatted timestamps) is of this form. -/
def benignStr (s : String) : Prop := ∀ c ∈ s.data, benignChar c

instance decidableBenignChar (c : Char) : Decidable (benignChar c) := by
  unfold benignChar
  infer_instance

instance decidableBenignStr (s : String) : Decidable (benignStr s) := by
  unfold benignStr
  infer_instance

/-- Literal chunk of the wire form before `sample_id`. -/
def litA : String := "\x7b\"sample_id\": "

/-- Literal chunk between `sample_id` and the `fault_code` string body. -/
def litB : String := ", \"fault_code\": \""

/-- Literal chunk between `fault_code` and the `fault_desc` string body. -/
def litC : String := ", \"fault_desc\": \""

/-- Literal chunk between `fault_desc` and the `fault_level` string body. -/
def litD : String := ", \"fault_level\": \""

/-- Literal chunk between `fault_level` and the `mean` feature. -/
def litE : String := ", \"signal_features\": \x7b\"mean\": "

/-- Literal chunk before the `std` feature. -/
def litF : String := ", \"std\": "

/-- Literal chunk before the `max` feature. -/
def litG : String := ", \"max\": "

/-- Literal chunk before the `min` feature. -/
def litH : String := ", \"min\": "

/-- Literal chunk before the `peak_to_peak` feature. -/
def litI : String := ", \"peak_to_peak\": "

/-- Literal chunk before `send_timestamp`. -/
def litJ : String := "\x7d, \"send_timestamp\": "

/-- Literal chunk before the `send_time` string body. -/
def litK : String := ", \"send_time\": \""

/-- Closing literal chunk. -/
def litL : String := "\x7d"

/-- Character sequence of `json.dumps(mqtt_msg, ensure_ascii=False)` for an
envelope (the string bodies are escaped; their closing quotes are the
explicit cons cells). -/
def serializeChars (e : Envelope) : List Char :=
  litA.data ++ (printInt e.sample_id ++
  (litB.data ++ (escChars e.fault_code.data ++ ('"' ::
  (litC.data ++ (escChars e.fault_desc.data ++ ('"' ::
  (litD.data ++ (escChars e.fault_level.data ++ ('"' ::
  (litE.data ++ (printMicro e.signal_features.mean ++
  (litF.data ++ (printMicro e.signal_features.std ++
  (litG.data ++ (printMicro e.signal_features.max ++
  (litH.data ++ (printMicro e.signal_features.min ++
  (litI.data ++ (printMicro e.signal_features.peak_to_peak ++
  (litJ.data ++ (printInt e.send_timestamp ++
  (litK.data ++ (escChars e.send_time.data ++ ('"' ::
  litL.data)))))))))))))))))))))))))

/-- The wire payload `msg_json` handed to `client.publish`. -/
def wireSerialize (e : Envelope) : String := ⟨serializeChars e⟩

/-! ## Wire deserialization

The consumer-side inverse (`json.loads` restricted to this fixed message
shape).  Modelled from the spec: the deserializer itself lives on the
algorithm host, outside this repository; the parser below inverts exactly
the grammar the serializer emits. -/

/-- Does the character list start with a decimal digit. -/
def headIsDigit : List Char → Bool
  | [] => false
  | c :: _ => c.isDigit

/-- Consume a maximal run of decimal digits, folding their value onto an
accumulator. -/
def readDigits (acc : Nat) : List Char → Nat × List Char
  | [] => (acc, [])
  | c :: cs => if c.isDigit then readDigits (acc * 10 + chVal c) cs else (acc, c :: cs)

/-- Consume exactly `k` decimal digits. -/
def readNDigits : Nat → Nat → List Char → Option (Nat × List Char)
  | 0, acc, cs => some (acc, cs)
  | _ + 1, _, [] => none
  | k + 1, acc, c :: cs =>
    if c.isDigit then readNDigits k (acc * 10 + chVal c) cs else none

/-- Folded value of a digit-character list over an accumulator. -/
def digitsVal (acc : Nat) (ds : List Char) : Nat :=
  ds.foldl (fun a c => a * 10 + chVal c) acc

/-- Consume an exact literal character sequence. -/
def parseLit : List Char → List Char → Option (List Char)
  | [], cs => some cs
  | _ :: _, [] => none
  | l :: ls, c :: cs => if c = l then parseLit ls cs else none

/-- Consume an unsigned decimal integer (at least one digit). -/
def parseUNat (cs : List Char) : Option (Nat × List Char) :=
  match cs with
  | [] => none
  | c :: _ => if c.isDigit then some (readDigits 0 cs) else none

/-- Consume a (possibly negative) decimal integer. -/
def parseInt : List Char → Option (ℤ × List Char)
  | [] => none
  | c :: cs₁ =>
    if c = '-' then
      match parseUNat cs₁ with
      | some (n, rest) => some (-(n : ℤ), rest)
      | none => none
    else
      match parseUNat (c :: cs₁) with
      | some (n, rest) => some ((n : ℤ), rest)
      | none => none

/-- Consume an unsigned decimal number with exactly six fractional digits,
returning its value in units of `10 ^ (-6)`. -/
def parseUMicro (cs : List Char) : Option (Nat × List Char) :=
  match cs with
  | [] => none
  | c :: _ =>
    if c.isDigit then
      match readDigits 0 cs with
      | (ip, '.' :: cs₂) =>
        match readNDigits 6 0 cs₂ with
        | some (fr, cs₃) => some (ip * 1000000 + fr, cs₃)
        | none => none
      | _ => none
    else none

/-- Consume a (possibly negative) decimal number with six fractional
digits, in units of `10 ^ (-6)`. -/
def parseMicro : List Char → Option (ℤ × List Char)
  | [] => none
  | c :: cs₁ =>
    if c = '-' then
      match parseUMicro cs₁ with
      | some (n, rest) => some (-(n : ℤ), rest)
      | none => none
    else
      match parseUMicro (c :: cs₁) with
      | some (n, rest) => some ((n : ℤ), rest)
      | none => none

/-- Fueled reader of a json string body up to and including its closing
quote, unescaping as json.loads does (the escapes the serializer can emit
for text content).  Each step consumes at least one character, so any
fuel above the input length is enough. -/
def readJsonStringAux : Nat → List Char → List Char → Option (String × List Char)
  | 0, _, _ => none
  | fuel + 1, acc, cs =>
    match cs with
    | [] => none
    | c :: cs₁ =>
      if c = '"' then some (⟨acc.reverse⟩, cs₁)
      else if c = '\\' then
        match cs₁ with
        | [] => none
        | c₂ :: cs₂ =>
          if c₂ = '"' ∨ c₂ = '\\' then readJsonStringAux fuel (c₂ :: acc) cs₂ else none
      else readJsonStringAux fuel (c :: acc) cs₁

/-- Consume a json string body up to and including its closing quote. -/
def readJsonString (acc cs : List Char) : Option (String × List Char) :=
  readJsonStringAux (cs.length + 1) acc cs

/-- Parse the full wire form of an envelope. -/
def parseEnvelope (cs₀ : List Char) : Option Envelope :=
  match parseLit litA.data cs₀ with
  | none => none
  | some s1 =>
  match parseInt s1 with
  | none => none
  | some (sid, s2) =>
  match parseLit litB.data s2 with
  | none => none
  | some s3 =>
  match readJsonString [] s3 with
  | none => none
  | some (fc, s4) =>
  match parseLit litC.data s4 with
  | none => none
  | some s5 =>
  match readJsonString [] s5 with
  | none => none
  | some (fd, s6) =>
  match parseLit litD.data s6 with
  | none => none
  | some s7 =>
  match readJsonString [] s7 with
  | none => none
  | some (fl, s8) =>
  match parseLit litE.data s8 with
  | none => none
  | some s9 =>
  match parseMicro s9 with
  | none => none
  | some (m1, s10) =>
  match parseLit litF.data s10 with
  | none => none
  | some s11 =>
  match parseMicro s11 with
  | none => none
  | some (m2, s12) =>
  match parseLit litG.data s12 with
  | none => none
  | some s13 =>
  match parseMicro s13 with
  | none => none
  | some (m3, s14) =>
  match parseLit litH.data s14 with
  | none => none
  | some s15 =>
  match parseMicro s15 with
  | none => none
  | some (m4, s16) =>
  match parseLit litI.data s16 with
  | none => none
  | some s17 =>
  match parseMicro s17 with
  | none => none
  | some (m5, s18) =>
  match parseLit litJ.data s18 with
  | none => none
  | some s19 =>
  match parseInt s19 with
  | none => none
  | some (ts, s20) =>
  match parseLit litK.data s20 with
  | none => none
  | some s21 =>
  match readJsonString [] s21 with
  | none => none
  | some (st, s22) =>
  match parseLit litL.data s22 with
  | none => none
  | some s23 =>
  match s23 with
  | [] => some ⟨sid, fc, fd, fl, ⟨m1, m2, m3, m4, m5⟩, ts, st⟩
  | _ => none

/-- Deserialize a wire payload back into an envelope. -/
def wireDeserialize (s : String) : Option Envelope := parseEnvelope s.data

/-! ## The publish session, `send_bearing_data_to_algorithm` (source lines 101-178)

The session body (connect, loop over rows, summary) sits inside a single
`try/except`.  The paho-mqtt client is the environment:

* `client.connect(...)` raises only on transport-level failures (broker
  unreachable); a broker CONNACK refusal (protocol error, bad client id,
  server unavailable, bad credentials, not authorized) is delivered
  asynchronously as the `rc` argument of the `on_connect` callback and
  does not raise — modelled by the pair `connectRaises` / `connackRc`.
* `client.publish(...)` returns an `MQTTMessageInfo` whose `rc` field the
  loop compares with `MQTT_ERR_SUCCESS = 0` — modelled by `pubRc`, the
  return code of the i-th publish call.
* `int(time.time())` and `time.strftime(...)` at the i-th row — modelled
  by `clock`.

A row read from `load_bearing_data` always carries the five feature
columns and the three fault columns; `int(row["id"])` raises (KeyError)
when the source had no `id` column — modelled by an optional id. -/

/-- One row of the preprocessed DataFrame as the sender loop consumes it. -/
structure ProcessedRow where
  rowId : Option ℤ
  fault : FaultInfo
  signal_mean : ℚ
  signal_std : ℚ
  signal_max : ℚ
  signal_min : ℚ
  signal_peak_to_peak : ℚ
deriving DecidableEq

/-- Building `mqtt_msg` for one row (source lines 127-142): `none` models
the KeyError from `int(row["id"])` on a row without an id; otherwise every
envelope field is populated, the features rounded to six decimals. -/
def buildEnvelope (r : ProcessedRow) (stamp : ℤ × String) : Option Envelope :=
  match r.rowId with
  | none => none
  | some i =>
    some ⟨i, r.fault.code, r.fault.desc, r.fault.level,
      ⟨micro6 r.signal_mean, micro6 r.signal_std, micro6 r.signal_max,
       micro6 r.signal_min, micro6 r.signal_peak_to_peak⟩,
      stamp.1, stamp.2⟩

/-- Environment behaviour of the MQTT client and the wall clock during
one session. -/
structure SessionEnv where
  connectRaises : Bool
  connackRc : Nat
  pubRc : Nat → Nat
  clock : Nat → ℤ × String

/-- An exception escaping the session body to its `except` handler. -/
inductive SessionError where
  | connectFailed : SessionError
  | rowError : Nat → SessionError
  | zeroDivision : SessionError
deriving DecidableEq

/-- The printed run statistics (source lines 171-175). -/
structure RunSummary where
  total : Nat
  succeeded : Nat
  failed : Nat
  success_rate : ℚ
deriving DecidableEq

/-- The `rc_msg` table of `on_mqtt_connect` (source lines 82-89). -/
def rc_msg (rc : Nat) : Option String :=
  match rc with
  | 0 => some "连接成功"
  | 1 => some "协议版本错误"
  | 2 => some "客户端ID非法"
  | 3 => some "服务器不可用"
  | 4 => some "用户名/密码错误"
  | 5 => some "未授权"
  | _ => none

/-- The connect callback (source lines 80-93): it only formats a log line
from the CONNACK code; it raises nothing and aborts nothing. -/
def on_mqtt_connect (rc : Nat) : String :=
  if rc = 0 then " MQTT连接成功（算法端主机：192.168.1.100）"
  else " MQTT连接失败：" ++ ((rc_msg rc).getD ("未知错误码" ++ toString rc))

/-- The topic every publish call uses, `MQTT_CONFIG["topic"]`. -/
def MQTT_topic : String := "bearing/fault/detection"

/-- The per-row loop (source lines 122-163): build the envelope (may
raise), publish it (qos 1), classify the outcome by the returned `rc`,
and continue.  Returns the list of `(topic, payload)` pairs handed to
`client.publish` and either the final `(send_count, fail_count)` or the
exception that escaped the loop. -/
def sessionLoop (env : SessionEnv) :
    Nat → Nat → Nat → List ProcessedRow →
      List (String × String) × Except SessionError (Nat × Nat)
  | _, sc, fc, [] => ([], .ok (sc, fc))
  | idx, sc, fc, r :: rs =>
    match buildEnvelope r (env.clock idx) with
    | none => ([], .error (.rowError idx))
    | some e =>
      let sc' := if env.pubRc idx = 0 then sc + 1 else sc
      let fc' := if env.pubRc idx = 0 then fc else fc + 1
      let rest := sessionLoop env (idx + 1) sc' fc' rs
      ((MQTT_topic, wireSerialize e) :: rest.1, rest.2)

/-- The publish calls a session issues from row index `idx` on: one per
row, in source order, stopping at the first row whose envelope build
raises. -/
def tracesFrom (env : SessionEnv) : Nat → List ProcessedRow → List (String × String)
  | _, [] => []
  | idx, r :: rs =>
    match buildEnvelope r (env.clock idx) with
    | none => []
    | some e => (MQTT_topic, wireSerialize e) :: tracesFrom env (idx + 1) rs

/-- The `(topic, payload)` pair row `r` at index `idx` contributes to the
trace (the empty payload stands in for a row whose build raises and which
therefore contributes nothing). -/
def rowPayload (env : SessionEnv) (idx : Nat) (r : ProcessedRow) : String × String :=
  (MQTT_topic, (buildEnvelope r (env.clock idx)).elim "" wireSerialize)

/-- One publish pair per row, rows kept in source order with the index
advancing by one — the shape the ordering claim asserts of the trace.
This function never consults the publish outcomes. -/
def payloadsFrom (env : SessionEnv) : Nat → List ProcessedRow → List (String × String)
  | _, [] => []
  | i, r :: rs => rowPayload env i r :: payloadsFrom env (i + 1) rs

/-- The whole session (source lines 101-178).  `connect` raising aborts
before any publish; otherwise the loop runs; an exception escaping the
loop aborts the session; after a completed loop the summary line
`round(send_count / len(df) * 100, 2)` raises ZeroDivisionError when the
DataFrame is empty, and every exception lands in the `except` handler, so
no summary is produced on any of these paths. -/
def send_bearing_data_to_algorithm (env : SessionEnv) (df : List ProcessedRow) :
    List (String × String) × Except SessionError RunSummary :=
  if env.connectRaises then ([], .error .connectFailed)
  else
    match sessionLoop env 0 0 0 df with
    | (tr, .error e) => (tr, .error e)
    | (tr, .ok (sc, fc)) =>
      if df.length = 0 then (tr, .error .zeroDivision)
      else (tr, .ok ⟨df.length, sc, fc, pyRound ((sc : ℚ) / (df.length : ℚ) * 100) 2⟩)

/-! ## Concrete fixtures for witnesses and counterexamples -/

/-- A fixed wall-clock reading. -/
def stamp0 : ℤ × String := (1700000000, "2024-01-01 00:00:00")

/-- Environment: connect succeeds, CONNACK accepted, every publish
succeeds. -/
def envAllOk : SessionEnv := ⟨false, 0, fun _ => 0, fun _ => stamp0⟩

/-- Environment: the TCP connect returns, but the broker refuses the
CONNACK with code 4 (bad username/password); with the connection refused,
every publish call returns a non-zero error code. -/
def envBadCred : SessionEnv := ⟨false, 4, fun _ => 4, fun _ => stamp0⟩

/-- Environment: `client.connect` itself raises (broker unreachable). -/
def envConnRaise : SessionEnv := ⟨true, 0, fun _ => 0, fun _ => stamp0⟩

/-- Environment: the first publish fails with a transport error code, the
rest succeed. -/
def envOneFail : SessionEnv := ⟨false, 0, fun i => if i = 0 then 4 else 0, fun _ => stamp0⟩

/-- A well-formed labeled row. -/
def rowGood : ProcessedRow := ⟨some 1, ⟨"B000", "直径1-正常状态", "normal"⟩, 3, 1, 5, 1, 4⟩

/-- A row whose `id` access raises (source without an `id` column). -/
def rowNoId : ProcessedRow := ⟨none, pendingInfo, 0, 0, 0, 0, 0⟩

/-- Another well-formed row. -/
def rowGood2 : ProcessedRow := ⟨some 2, unknownInfo, 2, 1, 3, 1, 2⟩

/-- Three rows of which the middle one raises while being processed. -/
def rowsAbortDemo : List ProcessedRow := [rowGood, rowNoId, rowGood2]

/-- A concrete envelope whose description holds non-ASCII text. -/
def envelope0 : Envelope :=
  ⟨7, "UNKNOWN", "未知状态", "unknown",
   ⟨1500000, -2250000, 5000000, -1000000, 6000000⟩,
   1700000000, "2024-01-01 00:00:00"⟩

/-! ## Feature derivation: claims C4 and C5 -/

/-- C4 (amended): for a signal vector of length at least one, the mean,
max, min and peak-to-peak features are finite (defined), while the
standard deviation is finite exactly when the vector has at least two
entries — pandas `std` uses `ddof = 1` and yields NaN on a single
sample, so the claim's "also for a vector of length exactly 1" fails for
the std feature. -/
theorem derived_features_finite (xs : List ℚ) (h : 1 ≤ xs.length) :
    (signalMean xs).isSome ∧ (signalMax xs).isSome ∧ (signalMin xs).isSome ∧
      (signalPeakToPeak xs).isSome ∧ ((signalStd xs).isSome ↔ 2 ≤ xs.length) := by
  match xs, h with
  | x :: t, _ =>
    refine ⟨?_, rfl, rfl, rfl, ?_⟩
    · simp [signalMean]
    · rw [signalStd]
      by_cases hc : (x :: t).length < 2
      · rw [if_pos hc]
        simp only [Option.isSome_none, Bool.false_eq_true, false_iff]
        omega
      · rw [if_neg hc]
        simp only [Option.isSome_some, true_iff]
        omega

/-- Witness: the two-sample vector `[1, 2]` has all five features
defined. -/
theorem derived_features_finite_witness :
    (signalMean [(1 : ℚ), 2]).isSome ∧ (signalMax [(1 : ℚ), 2]).isSome ∧
      (signalMin [(1 : ℚ), 2]).isSome ∧ (signalPeakToPeak [(1 : ℚ), 2]).isSome ∧
      ((signalStd [(1 : ℚ), 2]).isSome ↔ 2 ≤ ([(1 : ℚ), 2]).length) :=
  derived_features_finite [(1 : ℚ), 2] (by decide)

/-- C4 counterexample: the single-sample vector `[3]` has length at least
one, yet its derived standard deviation is NaN (pandas `ddof = 1`), so not
every derived feature is finite as the claim states. -/
theorem std_nan_on_single_sample :
    1 ≤ ([(3 : ℚ)]).length ∧ signalStd [(3 : ℚ)] = none :=
  ⟨by decide, rfl⟩

/-- C5: on every non-empty signal vector the derived peak-to-peak feature
is exactly the derived max minus the derived min (source line 59 defines
the column as that difference). -/
theorem peak_to_peak_exact (xs : List ℚ) (h : xs ≠ []) :
    ∃ a b, signalMax xs = some a ∧ signalMin xs = some b ∧
      signalPeakToPeak xs = some (a - b) := by
  match xs, h with
  | x :: t, _ => exact ⟨_, _, rfl, rfl, rfl⟩

/-- Witness: peak-to-peak of `[1, 5]` is max minus min. -/
theorem peak_to_peak_exact_witness :
    ∃ a b, signalMax [(1 : ℚ), 5] = some a ∧ signalMin [(1 : ℚ), 5] = some b ∧
      signalPeakToPeak [(1 : ℚ), 5] = some (a - b) :=
  peak_to_peak_exact [(1 : ℚ), 5] (by decide)

/-! ## Classification: claims C6 and C10 -/

/-- C6: the envelope classification columns follow the resolution rule of
source lines 62-70 — a labeled row whose index is in `FAULT_CODE_MAP`
gets that entry, a labeled row with an absent index gets the UNKNOWN
placeholder with level "unknown", and a row from an unlabeled source gets
the PENDING placeholder with level "pending". -/
theorem classification_resolution (lbl : Nat) (b : Bool) :
    (∀ info, FAULT_CODE_MAP lbl = some info → classifyRow true true lbl = info) ∧
      (FAULT_CODE_MAP lbl = none → classifyRow true true lbl = unknownInfo) ∧
      classifyRow false b lbl = pendingInfo := by
  refine ⟨?_, ?_, ?_⟩
  · intro info hinfo
    simp [classifyRow, hinfo]
  · intro hnone
    simp [classifyRow, hnone]
  · simp [classifyRow]

/-- Witness: label 0 resolves to the B000 entry, the absent label 10 to
the UNKNOWN placeholder, and an unlabeled row to the PENDING
placeholder. -/
theorem classification_resolution_witness :
    classifyRow true true 0 = ⟨"B000", "直径1-正常状态", "normal"⟩ ∧
      classifyRow true true 10 = unknownInfo ∧
      classifyRow false true 10 = pendingInfo :=
  ⟨(classification_resolution 0 true).1 ⟨"B000", "直径1-正常状态", "normal"⟩ rfl,
   (classification_resolution 10 true).2.1 rfl,
   (classification_resolution 10 true).2.2⟩

/-- C10: loading as labeled (`is_train = true`) with no "label" column
takes the `else` branch of source line 62, so every row receives the
PENDING placeholder — the same classification an unlabeled source
receives — rather than failing or using the UNKNOWN placeholder. -/
theorem missing_label_column_pending (lbl : Nat) (b : Bool) :
    classifyRow true false lbl = pendingInfo ∧
      classifyRow true false lbl = classifyRow false b lbl := by
  constructor <;> simp [classifyRow]

/-! ## Session helper lemmas -/

/-- The publish trace of the loop does not depend on the counters or on
the publish outcomes: it is `tracesFrom`. -/
theorem sessionLoop_fst (env : SessionEnv) :
    ∀ (rows : List ProcessedRow) (idx sc fc : Nat),
      (sessionLoop env idx sc fc rows).1 = tracesFrom env idx rows := by
  intro rows
  induction rows with
  | nil => intro idx sc fc; rfl
  | cons r rs ih =>
    intro idx sc fc
    simp only [sessionLoop, tracesFrom]
    cases buildEnvelope r (env.clock idx) with
    | none => rfl
    | some e => simp only [ih]

/-- If the loop returns counters, they account for every row exactly once
and the trace holds one publish per row. -/
theorem sessionLoop_ok_counts (env : SessionEnv) :
    ∀ (rows : List ProcessedRow) (idx sc fc sc' fc' : Nat),
      (sessionLoop env idx sc fc rows).2 = .ok (sc', fc') →
      sc' + fc' = sc + fc + rows.length ∧
        (sessionLoop env idx sc fc rows).1.length = rows.length := by
  intro rows
  induction rows with
  | nil =>
    intro idx sc fc sc' fc' h
    simp [sessionLoop] at h
    simp [sessionLoop]
    omega
  | cons r rs ih =>
    intro idx sc fc sc' fc' h
    rcases hb : buildEnvelope r (env.clock idx) with _ | e
    · simp [sessionLoop, hb] at h
    · simp only [sessionLoop, hb] at h ⊢
      have := ih (idx + 1) (if env.pubRc idx = 0 then sc + 1 else sc)
        (if env.pubRc idx = 0 then fc else fc + 1) sc' fc' h
      rcases this with ⟨hsum, hlen⟩
      refine ⟨?_, by simp [List.length_cons, hlen]⟩
      by_cases hrc : env.pubRc idx = 0
      · simp [hrc] at hsum
        simp [List.length_cons]
        omega
      · simp [hrc] at hsum
        simp [List.length_cons]
        omega

/-- When every row carries an id, no row raises and the loop completes
with counters. -/
theorem sessionLoop_ok_of_ids (env : SessionEnv) :
    ∀ (rows : List ProcessedRow) (idx sc fc : Nat),
      (∀ r ∈ rows, r.rowId.isSome) →
      ∃ sc' fc', (sessionLoop env idx sc fc rows).2 = .ok (sc', fc') := by
  intro rows
  induction rows with
  | nil => intro idx sc fc _; exact ⟨sc, fc, rfl⟩
  | cons r rs ih =>
    intro idx sc fc hids
    obtain ⟨i, hi⟩ := Option.isSome_iff_exists.mp (hids r (by simp))
    simp only [sessionLoop, buildEnvelope, hi]
    exact ih (idx + 1) _ _ fun x hx => hids x (by simp [hx])

/-- When every row carries an id, the trace is one payload per row in
source order. -/
theorem tracesFrom_eq_payloadsFrom (env : SessionEnv) :
    ∀ (rows : List ProcessedRow) (idx : Nat),
      (∀ r ∈ rows, r.rowId.isSome) →
      tracesFrom env idx rows = payloadsFrom env idx rows := by
  intro rows
  induction rows with
  | nil => intro idx _; rfl
  | cons r rs ih =>
    intro idx hids
    obtain ⟨i, hi⟩ := Option.isSome_iff_exists.mp (hids r (by simp))
    simp only [tracesFrom, payloadsFrom, buildEnvelope, hi, rowPayload, Option.elim]
    rw [ih (idx + 1) fun x hx => hids x (by simp [hx])]

/-- One payload per row: the length of `payloadsFrom`. -/
theorem payloadsFrom_length (env : SessionEnv) :
    ∀ (rows : List ProcessedRow) (idx : Nat),
      (payloadsFrom env idx rows).length = rows.length := by
  intro rows
  induction rows with
  | nil => intro idx; rfl
  | cons r rs ih => intro idx; simp [payloadsFrom, ih]

/-- When the connect call does not raise, the session's trace is the
loop's trace. -/
theorem send_fst (env : SessionEnv) (rows : List ProcessedRow)
    (hconn : env.connectRaises = false) :
    (send_bearing_data_to_algorithm env rows).1 = (sessionLoop env 0 0 0 rows).1 := by
  rw [send_bearing_data_to_algorithm, if_neg (by simp [hconn])]
  rcases hsl : sessionLoop env 0 0 0 rows with ⟨tr, res⟩
  cases res with
  | error e => rfl
  | ok p =>
    rcases p with ⟨sc, fc⟩
    by_cases hlen : rows.length = 0 <;> simp [hlen]

/-- Inversion of a session that produced a summary: the connect call did
not raise, the loop completed with counters `(sc, fc)`, the row list is
non-empty, and the summary is built from them by the statistics block. -/
theorem send_ok_inversion (env : SessionEnv) (rows : List ProcessedRow) (s : RunSummary)
    (h : (send_bearing_data_to_algorithm env rows).2 = .ok s) :
    env.connectRaises = false ∧ rows.length ≠ 0 ∧
      ∃ sc fc, (sessionLoop env 0 0 0 rows).2 = .ok (sc, fc) ∧
        s = ⟨rows.length, sc, fc, pyRound ((sc : ℚ) / (rows.length : ℚ) * 100) 2⟩ := by
  rw [send_bearing_data_to_algorithm] at h
  by_cases hc : env.connectRaises
  · rw [if_pos hc] at h
    simp at h
  · rw [if_neg hc] at h
    rcases hsl : sessionLoop env 0 0 0 rows with ⟨tr, res⟩
    rw [hsl] at h
    cases res with
    | error e => simp at h
    | ok p =>
      rcases p with ⟨sc, fc⟩
      by_cases hlen : rows.length = 0
      · simp [hlen] at h
      · simp [hlen] at h
        exact ⟨by simp [hc], hlen, sc, fc, rfl, h.symm⟩

/-! ## Session accounting: claims C1 and C8 -/

/-- C1 (amended): whenever a session produces a run summary, the row
count was positive and the success rate is the percentage
`round(succeeded / total * 100, 2)`; for an empty row sequence the
statistics line instead raises ZeroDivisionError (caught by the session
handler), so no summary carrying a zero rate is produced. -/
theorem summary_success_rate (env : SessionEnv) (rows : List ProcessedRow) (s : RunSummary)
    (h : (send_bearing_data_to_algorithm env rows).2 = .ok s) :
    0 < s.total ∧
      s.success_rate = pyRound ((s.succeeded : ℚ) / (s.total : ℚ) * 100) 2 := by
  obtain ⟨-, hlen, sc, fc, -, hs⟩ := send_ok_inversion env rows s h
  subst hs
  exact ⟨by simpa using Nat.pos_of_ne_zero hlen, rfl⟩

/-- Witness: a one-row all-success session yields the summary
`{total 1, succeeded 1, failed 0, rate 100}`, which satisfies the rate
formula. -/
theorem summary_success_rate_witness :
    0 < (RunSummary.mk 1 1 0 100).total ∧
      (RunSummary.mk 1 1 0 100).success_rate =
        pyRound (((RunSummary.mk 1 1 0 100).succeeded : ℚ) /
          ((RunSummary.mk 1 1 0 100).total : ℚ) * 100) 2 :=
  summary_success_rate envAllOk [rowGood] (RunSummary.mk 1 1 0 100) (by
    simp [send_bearing_data_to_algorithm, sessionLoop, buildEnvelope, envAllOk, rowGood, stamp0]
    norm_num [pyRound, roundHalfEven, Rat.floor_def'])

/-- C1 counterexample: on the empty row sequence the session does not
return a summary with rate zero — the statistics block divides by
`len(df) = 0`, the ZeroDivisionError lands in the `except` handler, and
the session ends in error. -/
theorem empty_session_zero_division :
    (send_bearing_data_to_algorithm envAllOk ([] : List ProcessedRow)).2 =
      .error .zeroDivision := rfl

/-- C8 (amended): whenever a session produces a run summary, every input
row yielded exactly one delivery attempt (the trace holds one publish per
row) and the counters satisfy `succeeded + failed = total` with `total`
the number of input rows.  (In a session aborted by a row-processing
exception — see the counterexample — the aborting row yields no attempt
and no summary exists.) -/
theorem summary_counters (env : SessionEnv) (rows : List ProcessedRow) (s : RunSummary)
    (h : (send_bearing_data_to_algorithm env rows).2 = .ok s) :
    s.total = rows.length ∧ s.succeeded + s.failed = s.total ∧
      (send_bearing_data_to_algorithm env rows).1.length = rows.length := by
  obtain ⟨hconn, hlen, sc, fc, hok, hs⟩ := send_ok_inversion env rows s h
  obtain ⟨hsum, hlen2⟩ := sessionLoop_ok_counts env rows 0 0 0 sc fc hok
  subst hs
  refine ⟨rfl, by simpa using hsum, ?_⟩
  rw [send_fst env rows hconn]
  exact hlen2

/-- Witness: the one-row all-success session has `total = 1`,
`succeeded + failed = 1`, and one publish in its trace. -/
theorem summary_counters_witness :
    (RunSummary.mk 1 1 0 100).total = ([rowGood]).length ∧
      (RunSummary.mk 1 1 0 100).succeeded + (RunSummary.mk 1 1 0 100).failed =
        (RunSummary.mk 1 1 0 100).total ∧
      (send_bearing_data_to_algorithm envAllOk [rowGood]).1.length = ([rowGood]).length :=
  summary_counters envAllOk [rowGood] (RunSummary.mk 1 1 0 100) (by
    simp [send_bearing_data_to_algorithm, sessionLoop, buildEnvelope, envAllOk, rowGood, stamp0]
    norm_num [pyRound, roundHalfEven, Rat.floor_def'])

/-- C8 counterexample: a session whose sole row lacks its id yields zero
delivery attempts for that row — the claimed "each row yields exactly
one delivery attempt" fails, and no summary counters exist. -/
theorem aborted_row_yields_no_attempt :
    (send_bearing_data_to_algorithm envAllOk [rowNoId]).1.length = 0 ∧
      ([rowNoId]).length = 1 ∧
      (send_bearing_data_to_algorithm envAllOk [rowNoId]).2 = .error (.rowError 0) :=
  ⟨rfl, rfl, rfl⟩

/-! ## Error propagation: claims C2 and C3 -/

/-- C2 (amended): a publish failure reported through the return code never
aborts the session — with a working connection and rows that all carry
their identifier, the session produces a run summary whatever the publish
outcomes are.  An exception raised while processing a row (for example a
missing identifier), however, aborts the session: the loop body is inside
the session-level `try`, so the remaining rows are skipped and no summary
is produced (see the counterexample). -/
theorem publish_failures_never_abort (env : SessionEnv) (rows : List ProcessedRow)
    (hconn : env.connectRaises = false) (hids : ∀ r ∈ rows, r.rowId.isSome)
    (hne : rows ≠ []) :
    ∃ s, (send_bearing_data_to_algorithm env rows).2 = .ok s := by
  obtain ⟨sc', fc', hok⟩ := sessionLoop_ok_of_ids env rows 0 0 0 hids
  rw [send_bearing_data_to_algorithm, if_neg (by simp [hconn])]
  rcases hsl : sessionLoop env 0 0 0 rows with ⟨tr, res⟩
  rw [hsl] at hok
  simp only [] at hok
  subst hok
  have hlen : rows.length ≠ 0 := by
    intro h0
    exact hne (List.length_eq_zero.mp h0)
  refine ⟨⟨rows.length, sc', fc', pyRound ((sc' : ℚ) / (rows.length : ℚ) * 100) 2⟩, ?_⟩
  simp [hlen]

/-- Witness: a two-row session whose first publish fails still completes
and returns a summary. -/
theorem publish_failures_never_abort_witness :
    ∃ s, (send_bearing_data_to_algorithm envOneFail [rowGood, rowGood2]).2 = .ok s :=
  publish_failures_never_abort envOneFail [rowGood, rowGood2] rfl (by decide) (by decide)

/-- C2 counterexample: in a three-row session whose middle row lacks its
identifier, the row-level error escapes to the session handler — only the
first row is published, the third row is never processed, and no run
summary is produced.  Row-level errors do abort the session. -/
theorem row_error_aborts_session :
    (send_bearing_data_to_algorithm envAllOk rowsAbortDemo).2 = .error (.rowError 1) ∧
      (send_bearing_data_to_algorithm envAllOk rowsAbortDemo).1.length = 1 ∧
      rowsAbortDemo.length = 3 :=
  ⟨rfl, rfl, rfl⟩

/-- C3 (amended): a connection attempt that raises (transport-level
failure: broker unreachable) aborts the session with zero publish calls
attempted; but a broker rejection delivered through the CONNACK code —
such as bad credentials — does not abort: the callback only formats a log
line, and the loop still attempts one publish per row. -/
theorem connect_exception_aborts (env : SessionEnv) (rows : List ProcessedRow) :
    (env.connectRaises = true →
      send_bearing_data_to_algorithm env rows = ([], .error .connectFailed)) ∧
      (env.connectRaises = false → (∀ r ∈ rows, r.rowId.isSome) →
        (send_bearing_data_to_algorithm env rows).1.length = rows.length) := by
  constructor
  · intro hc
    rw [send_bearing_data_to_algorithm, if_pos (by simp [hc])]
  · intro hc hids
    rw [send_fst env rows hc, sessionLoop_fst, tracesFrom_eq_payloadsFrom env rows 0 hids,
      payloadsFrom_length]

/-- Witness: with an unreachable broker the session aborts before any
publish; with a reachable broker a one-row session attempts one
publish. -/
theorem connect_exception_aborts_witness :
    send_bearing_data_to_algorithm envConnRaise [rowGood] = ([], .error .connectFailed) ∧
      (send_bearing_data_to_algorithm envAllOk [rowGood]).1.length = ([rowGood]).length :=
  ⟨(connect_exception_aborts envConnRaise [rowGood]).1 rfl,
   (connect_exception_aborts envAllOk [rowGood]).2 rfl (by decide)⟩

/-- C3 counterexample: when the broker refuses the CONNACK with code 4 —
the "bad username/password" cause of `on_mqtt_connect` — the session does
not abort: the sole row still produces a publish call (counted as failed)
and an all-failed summary is produced, contradicting "aborts with zero
publish calls attempted". -/
theorem bad_credentials_still_publishes :
    on_mqtt_connect 4 = " MQTT连接失败：用户名/密码错误" ∧
      (send_bearing_data_to_algorithm envBadCred [rowGood]).1.length = 1 ∧
      (send_bearing_data_to_algorithm envBadCred [rowGood]).2 =
        .ok ⟨1, 0, 1, 0⟩ := by
  refine ⟨rfl, rfl, ?_⟩
  simp [send_bearing_data_to_algorithm, sessionLoop, buildEnvelope, envBadCred, rowGood, stamp0]
  norm_num [pyRound, roundHalfEven, Rat.floor_def']

/-! ## Publish ordering: claim C9 -/

/-- C9: with a working connection, the messages handed to the channel are
exactly one per row in source order — `payloadsFrom` walks the rows in
order with the publish index advancing by one, and never consults the
publish outcomes.  The loop itself is strictly sequential by
construction: each outcome is recorded before the next row is touched. -/
theorem publish_in_source_order (env : SessionEnv) (rows : List ProcessedRow)
    (hconn : env.connectRaises = false) (hids : ∀ r ∈ rows, r.rowId.isSome) :
    (send_bearing_data_to_algorithm env rows).1 = payloadsFrom env 0 rows := by
  rw [send_fst env rows hconn, sessionLoop_fst, tracesFrom_eq_payloadsFrom env rows 0 hids]

/-- Witness: a two-row session hands over the two payloads in row order. -/
theorem publish_in_source_order_witness :
    (send_bearing_data_to_algorithm envAllOk [rowGood, rowGood2]).1 =
      payloadsFrom envAllOk 0 [rowGood, rowGood2] :=
  publish_in_source_order envAllOk [rowGood, rowGood2] rfl (by decide)

/-! ## Decimal printing and parsing lemmas (towards C7) -/

/-- Value of a printed digit. -/
theorem chVal_digitChar {n : Nat} (h : n < 10) : chVal (digitChar n) = n := by
  interval_cases n <;> rfl

/-- A printed digit is a digit character. -/
theorem isDigit_digitChar {n : Nat} (h : n < 10) : (digitChar n).isDigit = true := by
  interval_cases n <;> decide

/-- Digit reading steps over a digit character. -/
theorem readDigits_cons_digit {c : Char} (hc : c.isDigit = true) (acc : Nat) (cs : List Char) :
    readDigits acc (c :: cs) = readDigits (acc * 10 + chVal c) cs := by
  simp [readDigits, hc]

/-- Digit reading stops at a non-digit boundary. -/
theorem readDigits_stop (acc : Nat) (rest : List Char) (h : headIsDigit rest = false) :
    readDigits acc rest = (acc, rest) := by
  cases rest with
  | nil => rfl
  | cons c cs =>
    simp only [headIsDigit] at h
    simp [readDigits, h]

/-- Reading the printed digits of `n` accumulates exactly `n`. -/
theorem readDigits_natDigitsAux :
    ∀ (fuel n : Nat), n < fuel → ∀ (acc : Nat) (rest : List Char),
      readDigits acc (natDigitsAux fuel n ++ rest) =
        readDigits (acc * 10 ^ (natDigitsAux fuel n).length + n) rest := by
  intro fuel
  induction fuel with
  | zero => intro n h; omega
  | succ fuel ih =>
    intro n h acc rest
    by_cases h10 : n < 10
    · have hnd : natDigitsAux (fuel + 1) n = [digitChar n] := by
        simp only [natDigitsAux, if_pos h10]
      rw [hnd, List.singleton_append, readDigits_cons_digit (isDigit_digitChar h10),
        chVal_digitChar h10, List.length_singleton, pow_one]
    · have hnd : natDigitsAux (fuel + 1) n =
          natDigitsAux fuel (n / 10) ++ [digitChar (n % 10)] := by
        simp only [natDigitsAux, if_neg h10]
      rw [hnd, List.append_assoc, List.singleton_append,
        ih (n / 10) (by omega) acc (digitChar (n % 10) :: rest),
        readDigits_cons_digit (isDigit_digitChar (show n % 10 < 10 by omega)),
        chVal_digitChar (show n % 10 < 10 by omega),
        List.length_append, List.length_singleton]
      have key : (acc * 10 ^ (natDigitsAux fuel (n / 10)).length + n / 10) * 10 + n % 10 =
          acc * 10 ^ ((natDigitsAux fuel (n / 10)).length + 1) + n := by
        rw [pow_succ]
        have hdm : n / 10 * 10 + n % 10 = n := by omega
        calc (acc * 10 ^ (natDigitsAux fuel (n / 10)).length + n / 10) * 10 + n % 10
            = acc * (10 ^ (natDigitsAux fuel (n / 10)).length * 10) +
                (n / 10 * 10 + n % 10) := by ring
          _ = acc * (10 ^ (natDigitsAux fuel (n / 10)).length * 10) + n := by rw [hdm]
      rw [key]

/-- The printed digits of `n` start with a digit character. -/
theorem natDigitsAux_head : ∀ (fuel n : Nat), n < fuel →
    ∃ c cs, natDigitsAux fuel n = c :: cs ∧ c.isDigit = true := by
  intro fuel
  induction fuel with
  | zero => intro n h; omega
  | succ fuel ih =>
    intro n h
    by_cases h10 : n < 10
    · exact ⟨digitChar n, [], by simp only [natDigitsAux, if_pos h10], isDigit_digitChar h10⟩
    · obtain ⟨c, cs, hA, hc⟩ := ih (n / 10) (by omega)
      refine ⟨c, cs ++ [digitChar (n % 10)], ?_, hc⟩
      simp only [natDigitsAux, if_neg h10, hA, List.cons_append]

/-- Every character of the printed digits of `n` is a digit. -/
theorem natDigitsAux_all_digits : ∀ (fuel n : Nat), n < fuel →
    ∀ c ∈ natDigitsAux fuel n, c.isDigit = true := by
  intro fuel
  induction fuel with
  | zero => intro n h; omega
  | succ fuel ih =>
    intro n h c hc
    by_cases h10 : n < 10
    · rw [show natDigitsAux (fuel + 1) n = [digitChar n] from by
        simp only [natDigitsAux, if_pos h10]] at hc
      simp at hc
      subst hc
      exact isDigit_digitChar h10
    · rw [show natDigitsAux (fuel + 1) n =
          natDigitsAux fuel (n / 10) ++ [digitChar (n % 10)] from by
        simp only [natDigitsAux, if_neg h10]] at hc
      rcases List.mem_append.mp hc with hc | hc
      · exact ih (n / 10) (by omega) c hc
      · simp at hc
        subst hc
        exact isDigit_digitChar (show n % 10 < 10 by omega)

/-- Folded value of the printed digits of `n`. -/
theorem digitsVal_natDigitsAux : ∀ (fuel n : Nat), n < fuel → ∀ (acc : Nat),
    digitsVal acc (natDigitsAux fuel n) =
      acc * 10 ^ (natDigitsAux fuel n).length + n := by
  intro fuel
  induction fuel with
  | zero => intro n h; omega
  | succ fuel ih =>
    intro n h acc
    by_cases h10 : n < 10
    · have hnd : natDigitsAux (fuel + 1) n = [digitChar n] := by
        simp only [natDigitsAux, if_pos h10]
      rw [hnd, digitsVal]
      simp only [List.foldl_cons, List.foldl_nil]
      rw [chVal_digitChar h10, List.length_singleton, pow_one]
    · have hnd : natDigitsAux (fuel + 1) n =
          natDigitsAux fuel (n / 10) ++ [digitChar (n % 10)] := by
        simp only [natDigitsAux, if_neg h10]
      rw [hnd, digitsVal, List.foldl_append]
      simp only [List.foldl_cons, List.foldl_nil]
      have ihv := ih (n / 10) (by omega) acc
      rw [digitsVal] at ihv
      rw [ihv, chVal_digitChar (show n % 10 < 10 by omega),
        List.length_append, List.length_singleton, pow_succ]
      have hdm : n / 10 * 10 + n % 10 = n := by omega
      calc (acc * 10 ^ (natDigitsAux fuel (n / 10)).length + n / 10) * 10 + n % 10
          = acc * (10 ^ (natDigitsAux fuel (n / 10)).length * 10) +
              (n / 10 * 10 + n % 10) := by ring
        _ = acc * (10 ^ (natDigitsAux fuel (n / 10)).length * 10) + n := by rw [hdm]

/-- Printed digit strings of numbers below `10 ^ k` have at most `k`
digits. -/
theorem natDigitsAux_length_le : ∀ (fuel n k : Nat), n < fuel → n < 10 ^ k → 1 ≤ k →
    (natDigitsAux fuel n).length ≤ k := by
  intro fuel
  induction fuel with
  | zero => intro n k h; omega
  | succ fuel ih =>
    intro n k h hk h1
    by_cases h10 : n < 10
    · rw [show natDigitsAux (fuel + 1) n = [digitChar n] from by
        simp only [natDigitsAux, if_pos h10]]
      simpa using h1
    · rw [show natDigitsAux (fuel + 1) n =
          natDigitsAux fuel (n / 10) ++ [digitChar (n % 10)] from by
        simp only [natDigitsAux, if_neg h10]]
      have hk2 : 2 ≤ k := by
        by_contra hlt
        push_neg at hlt
        have hk1 : k = 1 := by omega
        subst hk1
        simp at hk
        omega
      have hpow : 10 ^ k = 10 ^ (k - 1) * 10 := by
        rw [← pow_succ]
        congr 1
        omega
      have hdiv : n / 10 < 10 ^ (k - 1) := by
        rw [Nat.div_lt_iff_lt_mul (by norm_num : 0 < 10)]
        omega
      have := ih (n / 10) (k - 1) (by omega) hdiv (by omega)
      rw [List.length_append, List.length_singleton]
      omega

/-- Reading the printed digits of `n` from an empty accumulator yields
`n` and stops at a non-digit boundary. -/
theorem readDigits_natDigits (n acc : Nat) (rest : List Char) :
    readDigits acc (natDigits n ++ rest) =
      readDigits (acc * 10 ^ (natDigits n).length + n) rest :=
  readDigits_natDigitsAux (n + 1) n (by omega) acc rest

/-- The printed digits of `n` begin with a digit character. -/
theorem natDigits_head (n : Nat) : ∃ c cs, natDigits n = c :: cs ∧ c.isDigit = true :=
  natDigitsAux_head (n + 1) n (by omega)

/-- Folding zeros keeps multiplying the accumulator by ten. -/
theorem digitsVal_replicate : ∀ (z acc : Nat),
    digitsVal acc (List.replicate z '0') = acc * 10 ^ z := by
  intro z
  induction z with
  | zero => intro acc; simp [digitsVal]
  | succ z ih =>
    intro acc
    rw [List.replicate_succ, digitsVal]
    simp only [List.foldl_cons]
    have step : acc * 10 + chVal '0' = acc * 10 := rfl
    rw [step]
    have := ih (acc * 10)
    rw [digitsVal] at this
    rw [this, pow_succ]
    ring

/-- Reading exactly the digits of a digit string recovers its folded
value. -/
theorem readNDigits_exact : ∀ (ds : List Char) (acc : Nat) (rest : List Char),
    (∀ c ∈ ds, c.isDigit = true) →
    readNDigits ds.length acc (ds ++ rest) = some (digitsVal acc ds, rest) := by
  intro ds
  induction ds with
  | nil => intro acc rest _; rfl
  | cons c cs ih =>
    intro acc rest h
    have hc := h c (by simp)
    simp only [List.length_cons, List.cons_append, readNDigits]
    rw [if_pos hc]
    exact ih (acc * 10 + chVal c) rest fun x hx => h x (by simp [hx])

/-- The padded six-digit block has width six. -/
theorem pad6_length {m : Nat} (hm : m < 1000000) : (pad6 m).length = 6 := by
  have h6 : (natDigits m).length ≤ 6 :=
    natDigitsAux_length_le (m + 1) m 6 (by omega) (by norm_num; omega) (by norm_num)
  rw [pad6, List.length_append, List.length_replicate]
  omega

/-- Every character of the padded six-digit block is a digit. -/
theorem pad6_all_digits (m : Nat) : ∀ c ∈ pad6 m, c.isDigit = true := by
  intro c hc
  rw [pad6] at hc
  rcases List.mem_append.mp hc with hc | hc
  · rw [List.eq_of_mem_replicate hc]
    rfl
  · exact natDigitsAux_all_digits (m + 1) m (by omega) c hc

/-- Folded value of the padded six-digit block. -/
theorem digitsVal_pad6 (m : Nat) : digitsVal 0 (pad6 m) = m := by
  rw [pad6, digitsVal, List.foldl_append]
  have h1 := digitsVal_replicate (6 - (natDigits m).length) 0
  rw [digitsVal] at h1
  rw [h1]
  have h2 := digitsVal_natDigitsAux (m + 1) m (by omega) (0 * 10 ^ (6 - (natDigits m).length))
  rw [digitsVal] at h2
  rw [natDigits] at h2 ⊢
  rw [h2]
  simp

/-- Reading six digits off the padded block recovers the value. -/
theorem readNDigits_pad6 {m : Nat} (hm : m < 1000000) (rest : List Char) :
    readNDigits 6 0 (pad6 m ++ rest) = some (m, rest) := by
  have hl := pad6_length hm
  calc readNDigits 6 0 (pad6 m ++ rest)
      = readNDigits (pad6 m).length 0 (pad6 m ++ rest) := by rw [hl]
    _ = some (digitsVal 0 (pad6 m), rest) := readNDigits_exact _ _ _ (pad6_all_digits m)
    _ = some (m, rest) := by rw [digitsVal_pad6]

/-- Parsing an unsigned printed integer at a non-digit boundary. -/
theorem parseUNat_natDigits (n : Nat) (rest : List Char) (h : headIsDigit rest = false) :
    parseUNat (natDigits n ++ rest) = some (n, rest) := by
  obtain ⟨c, cs, hnd, hc⟩ := natDigits_head n
  rw [hnd, List.cons_append]
  simp only [parseUNat]
  rw [if_pos hc, ← List.cons_append, ← hnd, readDigits_natDigits, readDigits_stop _ _ h]
  simp

/-- Parsing a printed integer at a non-digit boundary. -/
theorem parseInt_printInt (k : ℤ) (rest : List Char) (h : headIsDigit rest = false) :
    parseInt (printInt k ++ rest) = some (k, rest) := by
  by_cases hk : k < 0
  · rw [printInt, if_pos hk, List.cons_append]
    simp only [parseInt]
    rw [if_pos trivial, parseUNat_natDigits _ _ h]
    show some (-(k.natAbs : ℤ), rest) = some (k, rest)
    have hn : -(k.natAbs : ℤ) = k := by omega
    rw [hn]
  · rw [printInt, if_neg hk]
    obtain ⟨c, cs, hnd, hc⟩ := natDigits_head k.natAbs
    rw [hnd, List.cons_append]
    simp only [parseInt]
    have hcm : ¬ c = '-' := by
      intro he
      subst he
      exact absurd hc (by decide)
    rw [if_neg hcm, ← List.cons_append, ← hnd, parseUNat_natDigits _ _ h]
    show some ((k.natAbs : ℤ), rest) = some (k, rest)
    have hn : (k.natAbs : ℤ) = k := by omega
    rw [hn]

/-- Parsing an unsigned printed six-decimal number. -/
theorem parseUMicro_print (a : Nat) (rest : List Char) :
    parseUMicro (natDigits (a / 1000000) ++
        ('.' :: (pad6 (a % 1000000) ++ rest))) = some (a, rest) := by
  obtain ⟨c, cs, hnd, hc⟩ := natDigits_head (a / 1000000)
  rw [hnd, List.cons_append]
  simp only [parseUMicro]
  rw [if_pos hc, ← List.cons_append, ← hnd, readDigits_natDigits,
    readDigits_stop _ _ (by rfl)]
  simp only [zero_mul, zero_add]
  rw [@readNDigits_pad6 (a % 1000000) (by omega) rest]
  show some (a / 1000000 * 1000000 + a % 1000000, rest) = some (a, rest)
  have hdm : a / 1000000 * 1000000 + a % 1000000 = a := by omega
  rw [hdm]

/-- Parsing a printed six-decimal number. -/
theorem parseMicro_printMicro (k : ℤ) (rest : List Char) :
    parseMicro (printMicro k ++ rest) = some (k, rest) := by
  by_cases hk : k < 0
  · rw [printMicro, if_pos hk]
    simp only [List.append_assoc, List.singleton_append, List.cons_append, List.nil_append]
    simp only [parseMicro]
    rw [if_pos trivial, parseUMicro_print k.natAbs rest]
    show some (-(k.natAbs : ℤ), rest) = some (k, rest)
    have hn : -(k.natAbs : ℤ) = k := by omega
    rw [hn]
  · rw [printMicro, if_neg hk]
    simp only [List.nil_append, List.append_assoc, List.cons_append]
    obtain ⟨c, cs, hnd, hc⟩ := natDigits_head (k.natAbs / 1000000)
    rw [hnd, List.cons_append]
    simp only [parseMicro]
    have hcm : ¬ c = '-' := by
      intro he
      subst he
      exact absurd hc (by decide)
    rw [if_neg hcm, ← List.cons_append, ← hnd, parseUMicro_print k.natAbs rest]
    show some ((k.natAbs : ℤ), rest) = some (k, rest)
    have hn : (k.natAbs : ℤ) = k := by omega
    rw [hn]

/-! ## String escaping and literal lemmas (towards C7) -/

/-- Escaping leaves a benign character untouched. -/
theorem escJsonChar_benign {c : Char} (h : benignChar c) : escJsonChar c = [c] := by
  obtain ⟨h1, h2, h3⟩ := h
  have e8 : c ≠ '\x08' := by intro he; subst he; exact absurd h3 (by decide)
  have e9 : c ≠ '\x09' := by intro he; subst he; exact absurd h3 (by decide)
  have ea : c ≠ '\x0a' := by intro he; subst he; exact absurd h3 (by decide)
  have ec : c ≠ '\x0c' := by intro he; subst he; exact absurd h3 (by decide)
  have ed : c ≠ '\x0d' := by intro he; subst he; exact absurd h3 (by decide)
  have elt : ¬ c.toNat < 32 := by omega
  rw [escJsonChar, if_neg h1, if_neg h2, if_neg e8, if_neg e9, if_neg ea, if_neg ec,
    if_neg ed, if_neg elt]

/-- Escaping leaves a benign character sequence untouched. -/
theorem escChars_benign : ∀ (cs : List Char), (∀ c ∈ cs, benignChar c) → escChars cs = cs := by
  intro cs
  induction cs with
  | nil => intro _; rfl
  | cons c cs ih =>
    intro h
    rw [escChars, escJsonChar_benign (h c (by simp)), ih fun x hx => h x (by simp [hx])]
    rfl

/-- Reading a benign string body up to its closing quote, with enough
fuel. -/
theorem readJsonStringAux_append : ∀ (fuel : Nat) (cs : List Char), cs.length < fuel →
    (∀ c ∈ cs, benignChar c) → ∀ (acc rest : List Char),
      readJsonStringAux fuel acc (cs ++ '"' :: rest) = some (⟨acc.reverse ++ cs⟩, rest) := by
  intro fuel
  induction fuel with
  | zero => intro cs h; omega
  | succ fuel ih =>
    intro cs hlen hben acc rest
    cases cs with
    | nil =>
      simp only [List.nil_append, readJsonStringAux]
      rw [if_pos trivial]
      simp
    | cons c cs =>
      obtain ⟨h1, h2, -⟩ := hben c (by simp)
      simp only [List.cons_append, readJsonStringAux]
      rw [if_neg h1, if_neg h2,
        ih cs (by simp at hlen; omega) (fun x hx => hben x (by simp [hx])) (c :: acc) rest]
      simp

/-- Reading back an escaped benign string recovers it. -/
theorem readJsonString_esc (s : String) (hs : benignStr s) (rest : List Char) :
    readJsonString [] (escChars s.data ++ '"' :: rest) = some (s, rest) := by
  rw [escChars_benign s.data hs, readJsonString,
    readJsonStringAux_append ((s.data ++ '"' :: rest).length + 1) s.data
      (by simp; omega) hs [] rest]
  rfl

/-- A literal prefix parses off exactly itself. -/
theorem parseLit_self : ∀ (l rest : List Char), parseLit l (l ++ rest) = some rest := by
  intro l
  induction l with
  | nil => intro rest; rfl
  | cons c cs ih =>
    intro rest
    rw [List.cons_append, parseLit, if_pos rfl]
    exact ih rest

/-- A literal parses off itself completely. -/
theorem parseLit_refl (l : List Char) : parseLit l l = some [] := by
  have h := parseLit_self l []
  simpa using h

/-- The chunk after `sample_id` starts with a comma, not a digit. -/
theorem headIsDigit_litB (X : List Char) : headIsDigit (litB.data ++ X) = false := rfl

/-- The chunk after `send_timestamp` starts with a comma, not a digit. -/
theorem headIsDigit_litK (X : List Char) : headIsDigit (litK.data ++ X) = false := rfl

/-- Parsing the printed `sample_id` before its following literal chunk. -/
theorem parseInt_before_litB (k : ℤ) (X : List Char) :
    parseInt (printInt k ++ (litB.data ++ X)) = some (k, litB.data ++ X) :=
  parseInt_printInt k _ (headIsDigit_litB X)

/-- Parsing the printed `send_timestamp` before its following literal
chunk. -/
theorem parseInt_before_litK (k : ℤ) (X : List Char) :
    parseInt (printInt k ++ (litK.data ++ X)) = some (k, litK.data ++ X) :=
  parseInt_printInt k _ (headIsDigit_litK X)

/-! ## Wire round-trip: claim C7 -/

/-- C7: serializing a message envelope to its wire payload
(`json.dumps(..., ensure_ascii=False)`) and deserializing it yields the
original envelope field for field.  The string fields of every envelope
the script builds (fault codes, the Chinese descriptions kept verbatim by
`ensure_ascii=False`, level enums, formatted timestamps) contain no
quote, backslash or control character, which is the stated hypothesis. -/
theorem wire_roundtrip (e : Envelope) (h1 : benignStr e.fault_code)
    (h2 : benignStr e.fault_desc) (h3 : benignStr e.fault_level)
    (h4 : benignStr e.send_time) :
    wireDeserialize (wireSerialize e) = some e := by
  obtain ⟨sid, fcs, fds, fls, ⟨m1, m2, m3, m4, m5⟩, ts, st⟩ := e
  show parseEnvelope (serializeChars _) = _
  rw [serializeChars]
  simp only [parseEnvelope, parseLit_self, parseInt_before_litB, parseInt_before_litK,
    parseMicro_printMicro, readJsonString_esc fcs h1, readJsonString_esc fds h2,
    readJsonString_esc fls h3, readJsonString_esc st h4, parseLit_refl]

/-- Witness: the concrete envelope with the non-ASCII description
`未知状态` round-trips to itself. -/
theorem wire_roundtrip_witness :
    benignStr envelope0.fault_desc ∧
      wireDeserialize (wireSerialize envelope0) = some envelope0 :=
  ⟨by decide,
   wire_roundtrip envelope0 (by decide) (by decide) (by decide) (by decide)⟩

end EFD
